import Mathlib

/-!
Shallow embedding of the server-side room engine of the realtime trivia-racing
game (source: the GameRoom class and its static data).

Modelling conventions:
* JS numbers that hold fractional values (player progress, speed bonus) are
  embedded as rationals; scores are integers (the game only ever adds the
  integer result of a rounding to them); the countdown is an integer.
* Calls to the random generator (player id, avatar index, default-name number)
  are passed in as explicit oracle arguments: the code draws them from a
  random source, so the embedding quantifies over them.
* A broadcast (emitState) is recorded as a returned Boolean; operations that
  silently no-op return the unchanged state and a false flag.
* The setTimeout-scheduled automatic advance inside tick is recorded as a
  returned Boolean (true when the call scheduled a delayed advance), and the
  interval timer is recorded as a Boolean field timerOn (set by start, cleared
  by reset and by next on the last question).
-/

structure Player where
  id : String
  name : String
  color : String
  avatar : String
  progress : ℚ
  score : ℤ
  streak : ℕ
  socketId : String
deriving DecidableEq

structure MCQ where
  id : String
  q : String
  choices : List String
  answerIndex : ℤ
deriving DecidableEq

/-- The static question bank of the demo server. -/
def QUESTIONS : List MCQ := [
  { id := "q1", q := "What does the server do in this game?",
    choices := ["Draws cars only", "Keeps time, tallies scores, referees the race", "Picks random", "Streams music"],
    answerIndex := 1 },
  { id := "q2", q := "A correct answer does what?",
    choices := ["Brakes", "Teleports back", "Moves forward", "Changes color"],
    answerIndex := 2 },
  { id := "q3", q := "How many winners are crowned?",
    choices := ["1", "2", "3", "Unlimited"],
    answerIndex := 2 },
  { id := "q4", q := "Fair play means…",
    choices := ["Share answers", "Honest answers only", "Turn off timer", "Use two browsers"],
    answerIndex := 1 },
  { id := "q5", q := "Speed bonus triggers when…",
    choices := ["Answer quickly", "Refresh page", "Skip", "Change avatar"],
    answerIndex := 0 }]

def AVATARS : List String := ["🚗", "🏎️", "🚙", "🚕", "🚓", "🛻", "🚐", "🚘"]

def TRACK_LEN : ℚ := 100

def BASE_PUSH : ℚ := 18

/-- clamp(n, min, max) = Math.max(min, Math.min(max, n)). -/
def clamp (n lo hi : ℚ) : ℚ := max lo (min hi n)

/-- Math.round: round half toward positive infinity. -/
def jsRound (x : ℚ) : ℤ := ⌊x + 1/2⌋

/-- The wire snapshot shape pushed to clients on every mutation. -/
structure GameStateWire where
  started : Bool
  timeLeft : ℤ
  question : Option MCQ
  players : List Player
  finished : List String
deriving DecidableEq

/-- Mutable room state: the fields of the GameRoom class (the interval handle
is abstracted to the Boolean timerOn; the io handle is the broadcaster and
carries no game state). -/
structure GameRoom where
  started : Bool
  currentIndex : ℕ
  timeLeft : ℤ
  players : List Player
  finishedOrder : List String
  answered : List String
  timerOn : Bool
deriving DecidableEq

/-- Field initializers of the GameRoom class: a fresh room. -/
def initRoom : GameRoom :=
  { started := false, currentIndex := 0, timeLeft := 20, players := [],
    finishedOrder := [], answered := [], timerOn := false }

/-- Map.set keyed by player id: replace the entry with that key when present,
append otherwise (a JS Map holds one entry per key, in insertion order). -/
def playersSet (ps : List Player) (pl : Player) : List Player :=
  if ps.any (fun p => p.id == pl.id) then
    ps.map (fun p => if p.id == pl.id then pl else p)
  else ps ++ [pl]

/-- In-place mutation of the player stored under a key of the Map. -/
def updatePlayer (ps : List Player) (pid : String) (f : Player → Player) : List Player :=
  ps.map (fun p => if p.id == pid then f p else p)

namespace GameRoom

/-- join(socketId, name, color).  The random draws — the generated id
(uid()), the default-name number (Math.floor(Math.random()*99)) and the
avatar index (Math.floor(Math.random()*AVATARS.length)) — are oracle
arguments.  Returns the created player and the updated room; the call always
broadcasts a snapshot. -/
def join (r : GameRoom) (socketId name color genId : String)
    (nameNum avatarIx : ℕ) : Player × GameRoom :=
  let player : Player :=
    { id := genId,
      name := if name = "" then "Racer-" ++ toString (nameNum % 99) else name,
      color := color,
      avatar := AVATARS.getD (avatarIx % AVATARS.length) "",
      progress := 0, score := 0, streak := 0, socketId := socketId }
  (player, { r with players := playersSet r.players player })

/-- start(): no-op when already started, otherwise reset index, countdown,
finish order and answered set, and begin the interval timer.  The Boolean is
whether a snapshot was broadcast. -/
def start (r : GameRoom) : GameRoom × Bool :=
  if r.started then (r, false)
  else ({ r with
            started := true, currentIndex := 0, timeLeft := 20,
            finishedOrder := [], answered := [], timerOn := true }, true)

/-- reset(): back to the pre-start condition, all players zeroed, timer
cancelled.  Always broadcasts. -/
def reset (r : GameRoom) : GameRoom :=
  { r with
      started := false, currentIndex := 0, timeLeft := 20,
      finishedOrder := [], answered := [],
      players := r.players.map (fun p => { p with progress := 0, score := 0, streak := 0 }),
      timerOn := false }

/-- next(): advance to the following question when one exists, otherwise end
the round and cancel the timer.  Always broadcasts. -/
def next (r : GameRoom) : GameRoom :=
  if r.currentIndex < QUESTIONS.length - 1 then
    { r with currentIndex := r.currentIndex + 1, timeLeft := 20, answered := [] }
  else
    { r with started := false, timerOn := false }

/-- Effect of a correct answer on the answering player: the speed bonus,
push, progress clamp, score rounding and streak increment of the correct
branch of answer(). -/
def scoredPlayer (timeLeft : ℤ) (p : Player) : Player :=
  let speedBonus : ℚ := ((max 0 (timeLeft - 5) : ℤ) : ℚ) * 0.8
  let push : ℚ := BASE_PUSH + speedBonus + (p.streak : ℚ) * 4
  { p with
      progress := clamp (p.progress + push) 0 TRACK_LEN,
      score := p.score + jsRound (100 + speedBonus * 5 + (p.streak : ℚ) * 10),
      streak := p.streak + 1 }

/-- answer(playerId, choiceIndex): the scoring algorithm.  The Boolean is
whether a snapshot was broadcast (false exactly on the silent no-ops). -/
def answer (r : GameRoom) (playerId : String) (choiceIndex : ℤ) : GameRoom × Bool :=
  if r.started = false then (r, false) else
  match QUESTIONS[r.currentIndex]? with
  | none => (r, false)
  | some q =>
    if playerId ∈ r.answered then (r, false) else
    match r.players.find? (fun p => p.id == playerId) with
    | none => (r, false)
    | some p =>
      let answered2 := r.answered ++ [playerId]
      if choiceIndex = q.answerIndex then
        let p2 : Player := scoredPlayer r.timeLeft p
        let fin2 : List String :=
          if p2.progress ≥ 100 ∧ p.id ∉ r.finishedOrder ∧ r.finishedOrder.length < 3
          then r.finishedOrder ++ [p.id] else r.finishedOrder
        ({ r with
             answered := answered2,
             players := updatePlayer r.players playerId (fun _ => p2),
             finishedOrder := fin2 }, true)
      else
        ({ r with
             answered := answered2,
             players := updatePlayer r.players playerId (fun p => { p with streak := 0 }) }, true)

/-- tick(): no-op when not started; otherwise decrement the countdown floored
at 0 and broadcast.  The second Boolean records whether the call scheduled the
delayed automatic advance (setTimeout(next, 400) exactly when the new
countdown is 0). -/
def tick (r : GameRoom) : GameRoom × Bool × Bool :=
  if r.started = false then (r, false, false)
  else
    let t : ℤ := max 0 (r.timeLeft - 1)
    ({ r with timeLeft := t }, true, t = 0)

/-- wire(): the snapshot of the externally visible state. -/
def wire (r : GameRoom) : GameStateWire :=
  { started := r.started, timeLeft := r.timeLeft,
    question := QUESTIONS[r.currentIndex]?,
    players := r.players,
    finished := r.finishedOrder.take 3 }

end GameRoom

/-- Running n consecutive ticks, returning the final room and how many of the
ticks scheduled a delayed automatic advance. -/
def ticksSched : GameRoom → ℕ → GameRoom × ℕ
  | r, 0 => (r, 0)
  | r, n + 1 =>
    let t := GameRoom.tick r
    let rest := ticksSched t.1 n
    (rest.1, (if t.2.2 then 1 else 0) + rest.2)

/-- One request of a sequence of join() calls, its oracle draws included. -/
structure JoinReq where
  socketId : String
  name : String
  color : String
  genId : String
  nameNum : ℕ
  avatarIx : ℕ
deriving DecidableEq

/-- A sequence of join() calls: the list of returned players and the final
room. -/
def joinSeq : GameRoom → List JoinReq → List Player × GameRoom
  | r, [] => ([], r)
  | r, req :: rest =>
    let j := GameRoom.join r req.socketId req.name req.color req.genId req.nameNum req.avatarIx
    let s := joinSeq j.2 rest
    (j.1 :: s.1, s.2)

/-- One external or timer event of the engine, with its oracle draws. -/
inductive Step : GameRoom → GameRoom → Prop where
  | join (r : GameRoom) (socketId name color genId : String) (nameNum avatarIx : ℕ) :
      Step r (GameRoom.join r socketId name color genId nameNum avatarIx).2
  | start (r : GameRoom) : Step r (GameRoom.start r).1
  | reset (r : GameRoom) : Step r (GameRoom.reset r)
  | next (r : GameRoom) : Step r (GameRoom.next r)
  | answer (r : GameRoom) (pid : String) (ci : ℤ) : Step r (GameRoom.answer r pid ci).1
  | tick (r : GameRoom) : Step r (GameRoom.tick r).1

/-- Room states reachable from a fresh room by any sequence of operations. -/
inductive Reachable : GameRoom → Prop where
  | init : Reachable initRoom
  | step {r r2 : GameRoom} : Reachable r → Step r r2 → Reachable r2

/-- Concrete player produced by the first example join (oracle draws: id p1,
name number 0, avatar index 0). -/
def examplePlayer : Player :=
  { id := "p1", name := "Ann", color := "#00f6ff", avatar := "🚗",
    progress := 0, score := 0, streak := 0, socketId := "s1" }

/-- A room with one joined player. -/
def exampleJoined : GameRoom :=
  (GameRoom.join initRoom "s1" "Ann" "#00f6ff" "p1" 0 0).2

/-- The example room after start(): running at question 0 with 20 seconds. -/
def exampleRunning : GameRoom :=
  (GameRoom.start exampleJoined).1

/-- The example room after the player answered question 0 correctly. -/
def missA : GameRoom := (GameRoom.answer exampleRunning "p1" 1).1

/-- One advance later: question 1 is current and nobody has answered it. -/
def missB : GameRoom := GameRoom.next missA

/-- Another advance: question 1 has passed with no answer from the player. -/
def missC : GameRoom := GameRoom.next missB

/-- The example room after its 20 countdown ticks: started with countdown 0. -/
def zeroRoom : GameRoom := (ticksSched exampleRunning 20).1

/-- The first question of the bank. -/
def question0 : MCQ :=
  { id := "q1", q := "What does the server do in this game?",
    choices := ["Draws cars only", "Keeps time, tallies scores, referees the race", "Picks random", "Streams music"],
    answerIndex := 1 }

/-- The second question of the bank. -/
def question1 : MCQ :=
  { id := "q2", q := "A correct answer does what?",
    choices := ["Brakes", "Teleports back", "Moves forward", "Changes color"],
    answerIndex := 2 }

/-- The third question of the bank. -/
def question2 : MCQ :=
  { id := "q3", q := "How many winners are crowned?",
    choices := ["1", "2", "3", "Unlimited"],
    answerIndex := 2 }

/-- The example player after one correct answer at countdown 20 (streak was
0): progress 30, score 160, streak 1. -/
def winPlayer1 : Player := { examplePlayer with progress := 30, score := 160, streak := 1 }

/-- The example player after two correct answers at countdown 20: progress
30 + 34 = 64, score 160 + 170 = 330, streak 2. -/
def winPlayer : Player := { examplePlayer with progress := 64, score := 330, streak := 2 }

/-- The example room after the player also answered question 1 correctly. -/
def winC : GameRoom := (GameRoom.answer missB "p1" 2).1

/-- One advance later: question 2 current, the player at progress 64 with
streak 2, nobody has answered, nobody has finished. -/
def winD : GameRoom := GameRoom.next winC

/-- The room after the player answers question 2 correctly: the push is
30 + 2*4 = 38, progress clamps from 102 to 100, and the player is the first
to enter the finish order. -/
def winE : GameRoom := (GameRoom.answer winD "p1" 2).1

/-- The example room driven through all five questions by next(): the round
has ended (started = false) with the index still on the last question. -/
def endedRoom : GameRoom :=
  GameRoom.next (GameRoom.next (GameRoom.next (GameRoom.next (GameRoom.next exampleRunning))))

/-- A join request whose oracle drew the id string aaaa111. -/
def dupReq : JoinReq :=
  { socketId := "s2", name := "Bob", color := "#123", genId := "aaaa111",
    nameNum := 1, avatarIx := 1 }

/-- A join request whose oracle drew the distinct id string bbbb222. -/
def otherReq : JoinReq :=
  { socketId := "s3", name := "Cid", color := "#456", genId := "bbbb222",
    nameNum := 2, avatarIx := 2 }

/-- The per-player portion of the spec invariant: progress in [0,100] and a
non-negative score. -/
def PlayerOK (p : Player) : Prop := 0 ≤ p.progress ∧ p.progress ≤ 100 ∧ 0 ≤ p.score

/-- The room invariant: a valid question index, well-bounded players, and a
capped duplicate-free finish order. -/
def RoomInv (r : GameRoom) : Prop :=
  r.currentIndex < QUESTIONS.length ∧
  (∀ p ∈ r.players, PlayerOK p) ∧
  r.finishedOrder.length ≤ 3 ∧
  r.finishedOrder.Nodup

/-! Basic lemmas about the embedded operations. -/

lemma jsRound_eq (x : ℚ) (n : ℤ) (h1 : (n:ℚ) ≤ x + 1/2) (h2 : x + 1/2 < (n:ℚ) + 1) :
    jsRound x = n := by
  unfold jsRound
  rw [Int.floor_eq_iff]
  exact ⟨h1, by linarith⟩

lemma clamp_nonneg (x hi : ℚ) : 0 ≤ clamp x 0 hi := le_max_left 0 _

lemma clamp_le (x hi : ℚ) (h : 0 ≤ hi) : clamp x 0 hi ≤ hi :=
  max_le h (min_le_left hi x)

lemma jsRound_nonneg (x : ℚ) (h : 0 ≤ x) : 0 ≤ jsRound x := by
  unfold jsRound
  rw [Int.le_floor]
  push_cast
  linarith

namespace GameRoom

lemma answer_noop (r : GameRoom) (pid : String) (ci : ℤ)
    (h : r.started = false ∨ QUESTIONS[r.currentIndex]? = none ∨ pid ∈ r.answered ∨
      r.players.find? (fun p => p.id == pid) = none) :
    answer r pid ci = (r, false) := by
  unfold answer
  by_cases hs : r.started = false
  · simp [hs]
  · simp only [hs]
    rcases h with h | h | h | h
    · exact absurd h hs
    · simp [h]
    · cases hq : QUESTIONS[r.currentIndex]? with
      | none => simp
      | some q => simp [h]
    · cases hq : QUESTIONS[r.currentIndex]? with
      | none => simp
      | some q =>
        by_cases ha : pid ∈ r.answered
        · simp [ha]
        · simp [ha, h]

lemma answer_correct_eq (r : GameRoom) (pid : String) (ci : ℤ) (q : MCQ) (p : Player)
    (hs : r.started = true) (hq : QUESTIONS[r.currentIndex]? = some q)
    (ha : pid ∉ r.answered) (hp : r.players.find? (fun x => x.id == pid) = some p)
    (hc : ci = q.answerIndex) :
    answer r pid ci =
      ({ r with
           answered := r.answered ++ [pid],
           players := updatePlayer r.players pid (fun _ => scoredPlayer r.timeLeft p),
           finishedOrder :=
             if (scoredPlayer r.timeLeft p).progress ≥ 100 ∧ p.id ∉ r.finishedOrder ∧
                 r.finishedOrder.length < 3
             then r.finishedOrder ++ [p.id] else r.finishedOrder }, true) := by
  unfold answer
  simp [hs, hq, ha, hp, hc]

lemma answer_incorrect_eq (r : GameRoom) (pid : String) (ci : ℤ) (q : MCQ) (p : Player)
    (hs : r.started = true) (hq : QUESTIONS[r.currentIndex]? = some q)
    (ha : pid ∉ r.answered) (hp : r.players.find? (fun x => x.id == pid) = some p)
    (hc : ci ≠ q.answerIndex) :
    answer r pid ci =
      ({ r with
           answered := r.answered ++ [pid],
           players := updatePlayer r.players pid (fun x => { x with streak := 0 }) }, true) := by
  unfold answer
  simp [hs, hq, ha, hp, hc]

end GameRoom

lemma find?_eq_id {ps : List Player} {pid : String} {p : Player}
    (h : ps.find? (fun x => x.id == pid) = some p) : p.id = pid := by
  have := List.find?_some h
  simpa using this

lemma find?_updatePlayer {ps : List Player} {pid : String} {p : Player}
    (f : Player → Player) (h : ps.find? (fun x => x.id == pid) = some p)
    (hf : (f p).id = p.id) :
    (updatePlayer ps pid f).find? (fun x => x.id == pid) = some (f p) := by
  induction ps with
  | nil => simp at h
  | cons a t ih =>
    by_cases hh : (a.id == pid) = true
    · rw [List.find?_cons_of_pos t hh] at h
      have hap : a = p := by simpa using h
      subst hap
      show List.find? (fun x => x.id == pid)
        ((if (a.id == pid) = true then f a else a) :: updatePlayer t pid f) = some (f a)
      rw [if_pos hh]
      exact List.find?_cons_of_pos _ (by simp only [hf]; exact hh)
    · rw [List.find?_cons_of_neg t hh] at h
      show List.find? (fun x => x.id == pid)
        ((if (a.id == pid) = true then f a else a) :: updatePlayer t pid f) = some (f p)
      rw [if_neg hh]
      have step : List.find? (fun x => x.id == pid) (a :: updatePlayer t pid f)
          = List.find? (fun x => x.id == pid) (updatePlayer t pid f) :=
        List.find?_cons_of_neg _ hh
      exact step.trans (ih h)

lemma mem_updatePlayer {ps : List Player} {pid : String} {f : Player → Player} {x : Player}
    (hx : x ∈ updatePlayer ps pid f) : x ∈ ps ∨ ∃ p, p ∈ ps ∧ x = f p := by
  unfold updatePlayer at hx
  rcases List.mem_map.mp hx with ⟨p, hp, he⟩
  by_cases hh : (p.id == pid) = true
  · right
    exact ⟨p, hp, by rw [← he, if_pos hh]⟩
  · left
    rw [← he, if_neg hh]
    exact hp

lemma mem_playersSet {ps : List Player} {pl x : Player} (hx : x ∈ playersSet ps pl) :
    x ∈ ps ∨ x = pl := by
  unfold playersSet at hx
  split at hx
  · rcases List.mem_map.mp hx with ⟨p, hp, he⟩
    by_cases hh : (p.id == pl.id) = true
    · right
      rw [← he, if_pos hh]
    · left
      rw [← he, if_neg hh]
      exact hp
  · rcases List.mem_append.mp hx with h | h
    · left
      exact h
    · right
      simpa using h

lemma playerOK_scored (t : ℤ) (p : Player) (h : PlayerOK p) : PlayerOK (GameRoom.scoredPlayer t p) := by
  obtain ⟨h1, h2, h3⟩ := h
  have hsb : (0:ℚ) ≤ ((max 0 (t - 5) : ℤ) : ℚ) * 0.8 := by
    have hz : (0:ℤ) ≤ max 0 (t - 5) := le_max_left _ _
    have h0 : (0:ℚ) ≤ ((max 0 (t - 5) : ℤ) : ℚ) := by exact_mod_cast hz
    nlinarith
  have hst : (0:ℚ) ≤ (p.streak : ℚ) := Nat.cast_nonneg _
  refine ⟨clamp_nonneg _ _, ?_, ?_⟩
  · have h100 : (0:ℚ) ≤ TRACK_LEN := by norm_num [TRACK_LEN]
    have := clamp_le (p.progress +
      (BASE_PUSH + ((max 0 (t - 5) : ℤ) : ℚ) * 0.8 + (p.streak : ℚ) * 4)) TRACK_LEN h100
    simpa [GameRoom.scoredPlayer, TRACK_LEN] using this
  · show (0:ℤ) ≤ (GameRoom.scoredPlayer t p).score
    have harg : (0:ℚ) ≤ 100 + ((max 0 (t - 5) : ℤ) : ℚ) * 0.8 * 5 + (p.streak : ℚ) * 10 := by
      linarith
    exact add_nonneg h3 (jsRound_nonneg _ harg)

lemma playerOK_zeroStreak (x : Player) (h : PlayerOK x) : PlayerOK { x with streak := 0 } := h

lemma roomInv_initRoom : RoomInv initRoom := by
  refine ⟨?_, ?_, ?_, ?_⟩ <;> simp [initRoom, QUESTIONS, RoomInv]

namespace GameRoom

lemma inv_join (r : GameRoom) (socketId name color genId : String) (nameNum avatarIx : ℕ)
    (h : RoomInv r) : RoomInv (join r socketId name color genId nameNum avatarIx).2 := by
  obtain ⟨h1, h2, h3, h4⟩ := h
  refine ⟨h1, ?_, h3, h4⟩
  intro p hp
  rcases mem_playersSet hp with hp | hp
  · exact h2 p hp
  · rw [hp]
    exact ⟨le_refl 0, by norm_num, le_refl 0⟩

lemma inv_start (r : GameRoom) (h : RoomInv r) : RoomInv (start r).1 := by
  obtain ⟨h1, h2, h3, h4⟩ := h
  unfold start
  split
  · exact ⟨h1, h2, h3, h4⟩
  · exact ⟨by norm_num [QUESTIONS], h2, by simp, by simp⟩

lemma inv_reset (r : GameRoom) (h : RoomInv r) : RoomInv (reset r) := by
  obtain ⟨h1, h2, h3, h4⟩ := h
  refine ⟨by norm_num [QUESTIONS, reset], ?_, by simp [reset], by simp [reset]⟩
  intro p hp
  simp only [reset] at hp
  rcases List.mem_map.mp hp with ⟨x, hx, he⟩
  rw [← he]
  exact ⟨le_refl 0, by norm_num, le_refl 0⟩

lemma inv_next (r : GameRoom) (h : RoomInv r) : RoomInv (next r) := by
  obtain ⟨h1, h2, h3, h4⟩ := h
  unfold next
  split
  · refine ⟨?_, h2, h3, h4⟩
    simp only
    omega
  · exact ⟨h1, h2, h3, h4⟩

lemma inv_tick (r : GameRoom) (h : RoomInv r) : RoomInv (tick r).1 := by
  obtain ⟨h1, h2, h3, h4⟩ := h
  unfold tick
  split
  · exact ⟨h1, h2, h3, h4⟩
  · exact ⟨h1, h2, h3, h4⟩

lemma inv_answer (r : GameRoom) (pid : String) (ci : ℤ) (h : RoomInv r) :
    RoomInv (answer r pid ci).1 := by
  obtain ⟨h1, h2, h3, h4⟩ := h
  by_cases hs : r.started = true
  case neg =>
    rw [answer_noop r pid ci (Or.inl (by simpa using hs))]
    exact ⟨h1, h2, h3, h4⟩
  cases hq : QUESTIONS[r.currentIndex]? with
  | none =>
    rw [answer_noop r pid ci (Or.inr (Or.inl hq))]
    exact ⟨h1, h2, h3, h4⟩
  | some q =>
    by_cases ha : pid ∈ r.answered
    case pos =>
      rw [answer_noop r pid ci (Or.inr (Or.inr (Or.inl ha)))]
      exact ⟨h1, h2, h3, h4⟩
    cases hp : r.players.find? (fun x => x.id == pid) with
    | none =>
      rw [answer_noop r pid ci (Or.inr (Or.inr (Or.inr hp)))]
      exact ⟨h1, h2, h3, h4⟩
    | some p =>
      have hpmem : p ∈ r.players := List.mem_of_find?_eq_some hp
      by_cases hc : ci = q.answerIndex
      · rw [answer_correct_eq r pid ci q p hs hq ha hp hc]
        refine ⟨h1, ?_, ?_, ?_⟩
        · intro x hx
          rcases mem_updatePlayer hx with hx | ⟨y, hy, he⟩
          · exact h2 x hx
          · rw [he]
            exact playerOK_scored r.timeLeft p (h2 p hpmem)
        · simp only
          split
          · rename_i hcond
            obtain ⟨hg1, hg2, hg3⟩ := hcond
            rw [List.length_append]
            simp only [List.length_singleton]
            omega
          · exact h3
        · simp only
          split
          · rename_i hcond
            rw [List.nodup_append]
            exact ⟨h4, List.nodup_singleton _, by
              intro a haf hasing
              rw [List.mem_singleton] at hasing
              exact hcond.2.1 (hasing ▸ haf)⟩
          · exact h4
      · rw [answer_incorrect_eq r pid ci q p hs hq ha hp hc]
        refine ⟨h1, ?_, h3, h4⟩
        intro x hx
        rcases mem_updatePlayer hx with hx | ⟨y, hy, he⟩
        · exact h2 x hx
        · rw [he]
          exact playerOK_zeroStreak y (h2 y hy)

end GameRoom

lemma step_inv {r r2 : GameRoom} (h : RoomInv r) (hs : Step r r2) : RoomInv r2 := by
  cases hs with
  | join socketId name color genId nameNum avatarIx =>
    exact GameRoom.inv_join r socketId name color genId nameNum avatarIx h
  | start => exact GameRoom.inv_start r h
  | reset => exact GameRoom.inv_reset r h
  | next => exact GameRoom.inv_next r h
  | answer pid ci => exact GameRoom.inv_answer r pid ci h
  | tick => exact GameRoom.inv_tick r h

lemma reachable_inv {r : GameRoom} (h : Reachable r) : RoomInv r := by
  induction h with
  | init => exact roomInv_initRoom
  | step _ hs ih => exact step_inv ih hs

lemma reachable_exampleJoined : Reachable exampleJoined :=
  Reachable.step Reachable.init (Step.join initRoom "s1" "Ann" "#00f6ff" "p1" 0 0)

lemma reachable_exampleRunning : Reachable exampleRunning :=
  Reachable.step reachable_exampleJoined (Step.start exampleJoined)

lemma reachable_ticksSched {r : GameRoom} (h : Reachable r) (n : ℕ) :
    Reachable (ticksSched r n).1 := by
  induction n generalizing r with
  | zero => exact h
  | succ n ih =>
    show Reachable (ticksSched (GameRoom.tick r).1 n).1
    exact ih (Reachable.step h (Step.tick r))

lemma tick_at_zero_eq (r : GameRoom) (hs : r.started = true) (ht : r.timeLeft = 0) :
    GameRoom.tick r = ({ r with timeLeft := 0 }, true, true) := by
  unfold GameRoom.tick
  rw [hs, ht]
  norm_num

lemma ticksSched_at_zero (n : ℕ) (r : GameRoom) (hs : r.started = true) (ht : r.timeLeft = 0) :
    (ticksSched r n).2 = n ∧ (ticksSched r n).1.timeLeft = 0 ∧
    (ticksSched r n).1.started = true := by
  induction n generalizing r with
  | zero => exact ⟨rfl, ht, hs⟩
  | succ n ih =>
    obtain ⟨h1, h2, h3⟩ := ih { r with timeLeft := 0 } hs rfl
    have hexp : ticksSched r (n + 1)
        = ((ticksSched (GameRoom.tick r).1 n).1,
           (if (GameRoom.tick r).2.2 then 1 else 0) + (ticksSched (GameRoom.tick r).1 n).2) := rfl
    rw [hexp, tick_at_zero_eq r hs ht]
    refine ⟨?_, h2, h3⟩
    simp only [if_true]
    omega

/-- C3 counterexample: zeroRoom is a reachable started room whose countdown
already reached 0; two repeated ticks on it schedule two delayed automatic
advances — one per tick — not exactly one in total (the countdown does stay
at 0). -/
theorem C3_counterexample :
    Reachable zeroRoom ∧ zeroRoom.started = true ∧ zeroRoom.timeLeft = 0 ∧
    (ticksSched zeroRoom 2).2 = 2 ∧ (ticksSched zeroRoom 2).1.timeLeft = 0 := by
  refine ⟨reachable_ticksSched reachable_exampleRunning 20, ?_, ?_, ?_, ?_⟩ <;> decide

/-- C3 (amended): calling tick() on a started room whose countdown is already
0 leaves the countdown at 0 (it never goes negative), but it schedules a
delayed automatic advance (setTimeout of next() after 400ms) on every such
call: n repeated ticks schedule n advances, one per tick, not exactly one
across all of them. -/
theorem C3_tick_at_zero (r : GameRoom) (hs : r.started = true) (ht : r.timeLeft = 0) (n : ℕ) :
    (GameRoom.tick r).1.timeLeft = 0 ∧ (GameRoom.tick r).2.2 = true ∧
    (ticksSched r n).2 = n ∧ (ticksSched r n).1.timeLeft = 0 := by
  have h := ticksSched_at_zero n r hs ht
  rw [tick_at_zero_eq r hs ht]
  exact ⟨rfl, rfl, h.1, h.2.1⟩

/-- C3 witness: the amended statement evaluated on the concrete room zeroRoom
with three repeated ticks. -/
theorem C3_witness :
    zeroRoom.started = true ∧ zeroRoom.timeLeft = 0 ∧
    ((GameRoom.tick zeroRoom).1.timeLeft = 0 ∧ (GameRoom.tick zeroRoom).2.2 = true ∧
      (ticksSched zeroRoom 3).2 = 3 ∧ (ticksSched zeroRoom 3).1.timeLeft = 0) :=
  ⟨by decide, by decide, C3_tick_at_zero zeroRoom (by decide) (by decide) 3⟩

/-- C4 counterexample: a sequence of two join() calls whose random id draws
collide returns equal player ids (and the second join overwrites the first
player in the map, leaving a single entry). -/
theorem C4_counterexample :
    (joinSeq initRoom [dupReq, dupReq]).1.map (fun p => p.id) = ["aaaa111", "aaaa111"] ∧
    ¬ ((joinSeq initRoom [dupReq, dupReq]).1.map (fun p => p.id)).Nodup ∧
    (joinSeq initRoom [dupReq, dupReq]).2.players.length = 1 := by
  refine ⟨?_, ?_, ?_⟩ <;> decide

/-- C4 (amended): every join() returns a player whose id is exactly the string
drawn from the random generator, so the ids returned by a sequence of join()
calls are pairwise distinct whenever the drawn id strings are pairwise
distinct; the code itself enforces no uniqueness on the random draws. -/
theorem C4_join_ids (r : GameRoom) (reqs : List JoinReq) :
    (joinSeq r reqs).1.map (fun p => p.id) = reqs.map (fun rq => rq.genId) ∧
    ((reqs.map (fun rq => rq.genId)).Nodup →
      ((joinSeq r reqs).1.map (fun p => p.id)).Nodup) := by
  have key : ∀ (rs : List JoinReq) (s : GameRoom),
      (joinSeq s rs).1.map (fun p => p.id) = rs.map (fun rq => rq.genId) := by
    intro rs
    induction rs with
    | nil => intro s; rfl
    | cons a t ih =>
      intro s
      simp only [joinSeq, List.map_cons]
      rw [ih]
      rfl
  exact ⟨key reqs r, fun h => by rw [key reqs r]; exact h⟩

/-- C4 witness: the amended statement evaluated on two join() calls with
distinct drawn ids. -/
theorem C4_witness :
    ([dupReq, otherReq].map (fun rq => rq.genId)).Nodup ∧
    ((joinSeq initRoom [dupReq, otherReq]).1.map (fun p => p.id)).Nodup :=
  ⟨by decide, (C4_join_ids initRoom [dupReq, otherReq]).2 (by decide)⟩

/-- C7: next() with a following question increments the index, resets the
countdown to 20 and clears the answered set; next() on the last question
instead ends the round (started := false, timer cancelled); and the index is
never incremented past the last valid question index. -/
theorem C7_next_behavior (r : GameRoom) :
    (r.currentIndex < QUESTIONS.length - 1 →
      GameRoom.next r =
        { r with currentIndex := r.currentIndex + 1, timeLeft := 20, answered := [] }) ∧
    (r.currentIndex = QUESTIONS.length - 1 →
      GameRoom.next r = { r with started := false, timerOn := false }) ∧
    (r.currentIndex ≤ QUESTIONS.length - 1 →
      (GameRoom.next r).currentIndex ≤ QUESTIONS.length - 1) := by
  have hlen : QUESTIONS.length = 5 := rfl
  refine ⟨?_, ?_, ?_⟩
  · intro h
    unfold GameRoom.next
    rw [if_pos h]
  · intro h
    unfold GameRoom.next
    rw [if_neg (by omega)]
  · intro h
    unfold GameRoom.next
    split
    · rename_i hlt
      show r.currentIndex + 1 ≤ QUESTIONS.length - 1
      omega
    · exact h

/-- C7 witness: the statement evaluated on a running room at question 0 and on
the same room moved to the final question index. -/
theorem C7_witness :
    exampleRunning.currentIndex < QUESTIONS.length - 1 ∧
    GameRoom.next exampleRunning =
      { exampleRunning with currentIndex := 1, timeLeft := 20, answered := [] } ∧
    ({ exampleRunning with currentIndex := 4 } : GameRoom).currentIndex = QUESTIONS.length - 1 ∧
    GameRoom.next { exampleRunning with currentIndex := 4 } =
      { exampleRunning with currentIndex := 4, started := false, timerOn := false } :=
  ⟨by decide,
   (C7_next_behavior exampleRunning).1 (by decide),
   by decide,
   (C7_next_behavior { exampleRunning with currentIndex := 4 }).2.1 (by decide)⟩

/-- C9: start() is idempotent — on an already-started room it changes nothing
and broadcasts nothing, so two consecutive start() calls are equivalent to
one. -/
theorem C9_start_idempotent (r : GameRoom) :
    (r.started = true → GameRoom.start r = (r, false)) ∧
    GameRoom.start (GameRoom.start r).1 = ((GameRoom.start r).1, false) := by
  constructor
  · intro h
    unfold GameRoom.start
    rw [if_pos h]
  · by_cases h : r.started
    · have h1 : GameRoom.start r = (r, false) := by
        unfold GameRoom.start
        rw [if_pos h]
      rw [h1]
      unfold GameRoom.start
      rw [if_pos h]
    · have h1 : GameRoom.start r
          = ({ r with
                 started := true, currentIndex := 0, timeLeft := 20,
                 finishedOrder := [], answered := [], timerOn := true }, true) := by
        unfold GameRoom.start
        rw [if_neg h]
      rw [h1]
      rfl

/-- C9 witness: the statement evaluated on the concrete running room. -/
theorem C9_witness :
    exampleRunning.started = true ∧ GameRoom.start exampleRunning = (exampleRunning, false) :=
  ⟨rfl, (C9_start_idempotent exampleRunning).1 rfl⟩

lemma jsRound_congr (x : ℚ) (n : ℤ) (h : x = (n:ℚ)) : jsRound x = n := by
  rw [h]
  exact jsRound_eq _ n (by norm_num) (by linarith)

lemma scoredPlayer_spec (t : ℤ) (p : Player) :
    GameRoom.scoredPlayer t p =
      { p with
          progress := clamp (p.progress +
            (18 + ((max 0 (t - 5) : ℤ) : ℚ) * 0.8 + (p.streak : ℚ) * 4)) 0 100,
          score := p.score +
            jsRound (100 + ((max 0 (t - 5) : ℤ) : ℚ) * 0.8 * 5 + (p.streak : ℚ) * 10),
          streak := p.streak + 1 } := rfl

lemma scoredPlayer_at_20_0 (t : ℤ) (p : Player) (h0 : p.streak = 0) (h20 : t = 20) :
    GameRoom.scoredPlayer t p =
      { p with
          progress := clamp (p.progress + 30) 0 100,
          score := p.score + 160,
          streak := p.streak + 1 } := by
  subst h20
  have hmax : max (0:ℤ) (20 - 5) = 15 := by decide
  rw [scoredPlayer_spec, h0, hmax]
  have hround : jsRound (100 + ((15:ℤ) : ℚ) * 0.8 * 5 + ((0:ℕ) : ℚ) * 10) = 160 :=
    jsRound_congr _ 160 (by norm_num)
  rw [hround]
  have hpush : (18 + ((15:ℤ) : ℚ) * 0.8 + ((0:ℕ) : ℚ) * 4) = 30 := by norm_num
  rw [hpush]

/-- C1: a correct answer from an unanswered known player in a started room
computes speedBonus = max(0, countdown - 5) * 0.8, adds
18 + speedBonus + streak * 4 to the progress clamped to [0,100], adds
round(100 + speedBonus * 5 + streak * 10) to the score and increments the
streak by 1; in particular with streak 0 and countdown 20 the progress push
is 30, the score gain 160, and the streak becomes 1. -/
theorem C1_correct_answer_scoring (r : GameRoom) (q : MCQ) (p : Player) (i : ℤ)
    (hs : r.started = true) (hq : QUESTIONS[r.currentIndex]? = some q)
    (ha : p.id ∉ r.answered) (hp : r.players.find? (fun x => x.id == p.id) = some p)
    (hi : i = q.answerIndex) :
    (GameRoom.answer r p.id i).1.players.find? (fun x => x.id == p.id) =
      some { p with
               progress := clamp (p.progress +
                 (18 + ((max 0 (r.timeLeft - 5) : ℤ) : ℚ) * 0.8 + (p.streak : ℚ) * 4)) 0 100,
               score := p.score +
                 jsRound (100 + ((max 0 (r.timeLeft - 5) : ℤ) : ℚ) * 0.8 * 5 + (p.streak : ℚ) * 10),
               streak := p.streak + 1 } ∧
    (p.streak = 0 → r.timeLeft = 20 →
      (GameRoom.answer r p.id i).1.players.find? (fun x => x.id == p.id) =
        some { p with
                 progress := clamp (p.progress + 30) 0 100,
                 score := p.score + 160,
                 streak := p.streak + 1 }) := by
  have hfind : (GameRoom.answer r p.id i).1.players.find? (fun x => x.id == p.id)
      = some (GameRoom.scoredPlayer r.timeLeft p) := by
    rw [GameRoom.answer_correct_eq r p.id i q p hs hq ha hp hi]
    exact find?_updatePlayer _ hp rfl
  constructor
  · rw [hfind, scoredPlayer_spec]
  · intro h0 h20
    rw [hfind, scoredPlayer_at_20_0 r.timeLeft p h0 h20]

/-- C1 witness: the concrete running room, one player with streak 0 and
countdown 20, answering question 0 with the correct index 1: progress becomes
30, score 160, streak 1. -/
theorem C1_witness :
    exampleRunning.started = true ∧
    QUESTIONS[exampleRunning.currentIndex]? = some question0 ∧
    examplePlayer.id ∉ exampleRunning.answered ∧
    exampleRunning.players.find? (fun x => x.id == examplePlayer.id) = some examplePlayer ∧
    (GameRoom.answer exampleRunning examplePlayer.id 1).1.players.find?
        (fun x => x.id == examplePlayer.id) =
      some { examplePlayer with progress := 30, score := 160, streak := 1 } := by
  refine ⟨rfl, rfl, by decide, rfl, ?_⟩
  have h := (C1_correct_answer_scoring exampleRunning question0 examplePlayer 1
    rfl rfl (by decide) rfl rfl).2 rfl rfl
  rw [h]
  have hclamp : clamp (examplePlayer.progress + 30) 0 100 = 30 := by
    norm_num [clamp, examplePlayer, min_def, max_def]
  rw [hclamp]
  rfl

/-- C2 counterexample: a reachable trace in which the player answers question
0 correctly (streak becomes 1), gives no answer to question 1, and after
question 1 has passed (the index is 2) the streak is still 1 — a missing
answer does not reset the streak to 0. -/
theorem C2_counterexample :
    Reachable missC ∧
    missB.currentIndex = 1 ∧ missB.answered = [] ∧
    missC.currentIndex = 2 ∧
    missC.players.map (fun x => x.streak) = [1] := by
  refine ⟨?_, by decide, by decide, by decide, by decide⟩
  exact Reachable.step (Reachable.step (Reachable.step reachable_exampleRunning
    (Step.answer exampleRunning "p1" 1)) (Step.next missA)) (Step.next missB)

/-- C2 (amended): in every reachable room state every player has progress in
[0,100] and a non-negative score, and an incorrect answer resets that
player's streak to 0; a question that passes with no answer from a player,
however, leaves that player's streak unchanged. -/
theorem C2_invariants (r : GameRoom) (pid : String) (ci : ℤ) (q : MCQ) (p : Player) :
    (Reachable r → ∀ x ∈ r.players, 0 ≤ x.progress ∧ x.progress ≤ 100 ∧ 0 ≤ x.score) ∧
    (r.started = true → QUESTIONS[r.currentIndex]? = some q → pid ∉ r.answered →
      r.players.find? (fun x => x.id == pid) = some p → ci ≠ q.answerIndex →
      (GameRoom.answer r pid ci).1.players.find? (fun x => x.id == pid) =
        some { p with streak := 0 }) := by
  constructor
  · intro hr x hx
    exact (reachable_inv hr).2.1 x hx
  · intro hs hq ha hp hc
    rw [GameRoom.answer_incorrect_eq r pid ci q p hs hq ha hp hc]
    exact find?_updatePlayer _ hp rfl

/-- C2 witness: the amended statement evaluated on the concrete running room
and an incorrect answer (choice 0 against correct choice 1). -/
theorem C2_witness :
    Reachable exampleRunning ∧
    (∀ x ∈ exampleRunning.players, 0 ≤ x.progress ∧ x.progress ≤ 100 ∧ 0 ≤ x.score) ∧
    (GameRoom.answer exampleRunning "p1" 0).1.players.find? (fun x => x.id == "p1") =
      some { examplePlayer with streak := 0 } :=
  ⟨reachable_exampleRunning,
   (C2_invariants exampleRunning "p1" 0 question0 examplePlayer).1 reachable_exampleRunning,
   (C2_invariants exampleRunning "p1" 0 question0 examplePlayer).2
     rfl rfl (by decide) rfl (by decide)⟩

/-- C6: answer() is a silent no-op — state unchanged, no broadcast — when the
room is not started, there is no current question, the player already
answered, or the player id is unknown; in particular a second answer() by the
same player id right after a first one is always such a no-op. -/
theorem C6_answer_silent_noop (r : GameRoom) (pid : String) (ci ci2 : ℤ) :
    ((r.started = false ∨ QUESTIONS[r.currentIndex]? = none ∨ pid ∈ r.answered ∨
        r.players.find? (fun x => x.id == pid) = none) →
      GameRoom.answer r pid ci = (r, false)) ∧
    GameRoom.answer (GameRoom.answer r pid ci).1 pid ci2 =
      ((GameRoom.answer r pid ci).1, false) := by
  constructor
  · exact GameRoom.answer_noop r pid ci
  · by_cases hs : r.started = true
    case neg =>
      rw [GameRoom.answer_noop r pid ci (Or.inl (by simpa using hs))]
      exact GameRoom.answer_noop r pid ci2 (Or.inl (by simpa using hs))
    cases hq : QUESTIONS[r.currentIndex]? with
    | none =>
      rw [GameRoom.answer_noop r pid ci (Or.inr (Or.inl hq))]
      exact GameRoom.answer_noop r pid ci2 (Or.inr (Or.inl hq))
    | some q =>
      by_cases ha : pid ∈ r.answered
      case pos =>
        rw [GameRoom.answer_noop r pid ci (Or.inr (Or.inr (Or.inl ha)))]
        exact GameRoom.answer_noop r pid ci2 (Or.inr (Or.inr (Or.inl ha)))
      cases hp : r.players.find? (fun x => x.id == pid) with
      | none =>
        rw [GameRoom.answer_noop r pid ci (Or.inr (Or.inr (Or.inr hp)))]
        exact GameRoom.answer_noop r pid ci2 (Or.inr (Or.inr (Or.inr hp)))
      | some p =>
        by_cases hc : ci = q.answerIndex
        · rw [GameRoom.answer_correct_eq r pid ci q p hs hq ha hp hc]
          exact GameRoom.answer_noop _ pid ci2 (Or.inr (Or.inr (Or.inl (by simp))))
        · rw [GameRoom.answer_incorrect_eq r pid ci q p hs hq ha hp hc]
          exact GameRoom.answer_noop _ pid ci2 (Or.inr (Or.inr (Or.inl (by simp))))

/-- C6 witness: answer() on a not-started room is a silent no-op, and the
second of two consecutive answers by the same player in the running room is a
silent no-op. -/
theorem C6_witness :
    initRoom.started = false ∧
    GameRoom.answer initRoom "p1" 1 = (initRoom, false) ∧
    GameRoom.answer (GameRoom.answer exampleRunning "p1" 1).1 "p1" 2 =
      ((GameRoom.answer exampleRunning "p1" 1).1, false) :=
  ⟨rfl,
   (C6_answer_silent_noop initRoom "p1" 1 1).1 (Or.inl rfl),
   (C6_answer_silent_noop exampleRunning "p1" 1 2).2⟩

/-- C8: an incorrect answer from an unanswered known player in a started room
resets that player's streak to 0 while leaving the player's progress and
score untouched, marks the player as having answered, and broadcasts a
snapshot. -/
theorem C8_incorrect_answer (r : GameRoom) (pid : String) (ci : ℤ) (q : MCQ) (p : Player)
    (hs : r.started = true) (hq : QUESTIONS[r.currentIndex]? = some q)
    (ha : pid ∉ r.answered) (hp : r.players.find? (fun x => x.id == pid) = some p)
    (hc : ci ≠ q.answerIndex) :
    GameRoom.answer r pid ci =
      ({ r with
           answered := r.answered ++ [pid],
           players := updatePlayer r.players pid (fun x => { x with streak := 0 }) }, true) ∧
    (GameRoom.answer r pid ci).1.players.find? (fun x => x.id == pid) =
      some { p with streak := 0 } ∧
    pid ∈ (GameRoom.answer r pid ci).1.answered := by
  have he := GameRoom.answer_incorrect_eq r pid ci q p hs hq ha hp hc
  refine ⟨he, ?_, ?_⟩
  · rw [he]
    exact find?_updatePlayer _ hp rfl
  · rw [he]
    simp

/-- C8 witness: the concrete running room, the player answering question 0
with the wrong index 0: streak reset, progress and score unchanged, marked
answered, snapshot broadcast. -/
theorem C8_witness :
    exampleRunning.started = true ∧ (0:ℤ) ≠ question0.answerIndex ∧
    GameRoom.answer exampleRunning "p1" 0 =
      ({ exampleRunning with
           answered := ["p1"],
           players := updatePlayer exampleRunning.players "p1"
             (fun x => { x with streak := 0 }) }, true) ∧
    "p1" ∈ (GameRoom.answer exampleRunning "p1" 0).1.answered :=
  ⟨rfl, by decide,
   (C8_incorrect_answer exampleRunning "p1" 0 question0 examplePlayer
     rfl rfl (by decide) rfl (by decide)).1,
   (C8_incorrect_answer exampleRunning "p1" 0 question0 examplePlayer
     rfl rfl (by decide) rfl (by decide)).2.2⟩

lemma answer_correct_players (r : GameRoom) (pid : String) (ci : ℤ) (q : MCQ) (p : Player)
    (hs : r.started = true) (hq : QUESTIONS[r.currentIndex]? = some q)
    (ha : pid ∉ r.answered) (hp : r.players.find? (fun x => x.id == pid) = some p)
    (hc : ci = q.answerIndex) :
    (GameRoom.answer r pid ci).1.players =
      updatePlayer r.players pid (fun _ => GameRoom.scoredPlayer r.timeLeft p) := by
  rw [GameRoom.answer_correct_eq r pid ci q p hs hq ha hp hc]

lemma answer_correct_finishedOrder (r : GameRoom) (pid : String) (ci : ℤ) (q : MCQ) (p : Player)
    (hs : r.started = true) (hq : QUESTIONS[r.currentIndex]? = some q)
    (ha : pid ∉ r.answered) (hp : r.players.find? (fun x => x.id == pid) = some p)
    (hc : ci = q.answerIndex) :
    (GameRoom.answer r pid ci).1.finishedOrder =
      (if (GameRoom.scoredPlayer r.timeLeft p).progress ≥ 100 ∧
          p.id ∉ r.finishedOrder ∧ r.finishedOrder.length < 3
       then r.finishedOrder ++ [p.id] else r.finishedOrder) := by
  rw [GameRoom.answer_correct_eq r pid ci q p hs hq ha hp hc]

lemma scoredPlayer_at_20 (t : ℤ) (p : Player) (h20 : t = 20) :
    GameRoom.scoredPlayer t p =
      { p with
          progress := clamp (p.progress + (30 + (p.streak : ℚ) * 4)) 0 100,
          score := p.score + (160 + (p.streak : ℤ) * 10),
          streak := p.streak + 1 } := by
  subst h20
  have hmax : max (0:ℤ) (20 - 5) = 15 := by decide
  rw [scoredPlayer_spec, hmax]
  have hround : jsRound (100 + ((15:ℤ) : ℚ) * 0.8 * 5 + (p.streak : ℚ) * 10)
      = 160 + (p.streak : ℤ) * 10 := by
    apply jsRound_congr
    push_cast
    ring_nf
  rw [hround]
  have hpush : (18 + ((15:ℤ) : ℚ) * 0.8 + (p.streak : ℚ) * 4) = 30 + (p.streak : ℚ) * 4 := by
    norm_num
  rw [hpush]

lemma next_players (r : GameRoom) : (GameRoom.next r).players = r.players := by
  unfold GameRoom.next
  split <;> rfl

lemma next_finishedOrder (r : GameRoom) : (GameRoom.next r).finishedOrder = r.finishedOrder := by
  unfold GameRoom.next
  split <;> rfl

lemma missA_players : missA.players = [winPlayer1] := by
  show (GameRoom.answer exampleRunning "p1" 1).1.players = [winPlayer1]
  rw [answer_correct_players exampleRunning "p1" 1 question0 examplePlayer rfl rfl
    (by decide) rfl rfl]
  rw [scoredPlayer_at_20 exampleRunning.timeLeft examplePlayer rfl]
  norm_num [updatePlayer, exampleRunning, exampleJoined, initRoom, GameRoom.start,
    GameRoom.join, playersSet, examplePlayer, winPlayer1, clamp, min_def, max_def]

lemma missA_finishedOrder : missA.finishedOrder = [] := by
  show (GameRoom.answer exampleRunning "p1" 1).1.finishedOrder = []
  rw [answer_correct_finishedOrder exampleRunning "p1" 1 question0 examplePlayer rfl rfl
    (by decide) rfl rfl]
  have hne : ¬((GameRoom.scoredPlayer exampleRunning.timeLeft examplePlayer).progress ≥ 100 ∧
      examplePlayer.id ∉ exampleRunning.finishedOrder ∧ exampleRunning.finishedOrder.length < 3) := by
    intro hcon
    have hcp := hcon.1
    rw [scoredPlayer_at_20 exampleRunning.timeLeft examplePlayer rfl] at hcp
    norm_num [examplePlayer, clamp, min_def, max_def] at hcp
  rw [if_neg hne]
  rfl

lemma missB_players : missB.players = [winPlayer1] := by
  show (GameRoom.next missA).players = [winPlayer1]
  rw [next_players, missA_players]

lemma missB_finishedOrder : missB.finishedOrder = [] := by
  show (GameRoom.next missA).finishedOrder = []
  rw [next_finishedOrder, missA_finishedOrder]

lemma winC_players : winC.players = [winPlayer] := by
  show (GameRoom.answer missB "p1" 2).1.players = [winPlayer]
  rw [answer_correct_players missB "p1" 2 question1 winPlayer1 rfl rfl (by decide)
    (by rw [missB_players]; rfl) rfl]
  rw [missB_players, scoredPlayer_at_20 missB.timeLeft winPlayer1 rfl]
  norm_num [updatePlayer, winPlayer1, winPlayer, examplePlayer, clamp, min_def, max_def]

lemma winC_finishedOrder : winC.finishedOrder = [] := by
  show (GameRoom.answer missB "p1" 2).1.finishedOrder = []
  rw [answer_correct_finishedOrder missB "p1" 2 question1 winPlayer1 rfl rfl (by decide)
    (by rw [missB_players]; rfl) rfl]
  have hne : ¬((GameRoom.scoredPlayer missB.timeLeft winPlayer1).progress ≥ 100 ∧
      winPlayer1.id ∉ missB.finishedOrder ∧ missB.finishedOrder.length < 3) := by
    intro hcon
    have hcp := hcon.1
    rw [scoredPlayer_at_20 missB.timeLeft winPlayer1 rfl] at hcp
    norm_num [winPlayer1, examplePlayer, clamp, min_def, max_def] at hcp
  rw [if_neg hne, missB_finishedOrder]

lemma winD_players : winD.players = [winPlayer] := by
  show (GameRoom.next winC).players = [winPlayer]
  rw [next_players, winC_players]

lemma winD_finishedOrder : winD.finishedOrder = [] := by
  show (GameRoom.next winC).finishedOrder = []
  rw [next_finishedOrder, winC_finishedOrder]

/-- C5: in every reachable room state the finish-order list has length at
most 3 and no duplicate id; a correct answer appends the answering player at
the end of the list exactly when the player's updated progress reached 100,
the player was not yet recorded and fewer than 3 had finished (the
if-then-else equality gives both directions: a qualifying finisher IS
appended, a non-qualifying one never is); every other answer outcome and
every other operation leaves the list unchanged (or clears it on start and
reset) — so the list records, in arrival order, the first at most three
players whose progress reached 100. -/
theorem C5_finish_order (r : GameRoom) (hr : Reachable r) (pid : String) (ci : ℤ)
    (q : MCQ) (p : Player) :
    r.finishedOrder.length ≤ 3 ∧ r.finishedOrder.Nodup ∧
    (r.started = true → QUESTIONS[r.currentIndex]? = some q → pid ∉ r.answered →
      r.players.find? (fun x => x.id == pid) = some p → ci = q.answerIndex →
      (GameRoom.answer r pid ci).1.players.find? (fun x => x.id == pid) =
        some (GameRoom.scoredPlayer r.timeLeft p) ∧
      (GameRoom.answer r pid ci).1.finishedOrder =
        (if (GameRoom.scoredPlayer r.timeLeft p).progress ≥ 100 ∧
            pid ∉ r.finishedOrder ∧ r.finishedOrder.length < 3
         then r.finishedOrder ++ [pid] else r.finishedOrder)) ∧
    (r.started = true → QUESTIONS[r.currentIndex]? = some q → pid ∉ r.answered →
      r.players.find? (fun x => x.id == pid) = some p → ci ≠ q.answerIndex →
      (GameRoom.answer r pid ci).1.finishedOrder = r.finishedOrder) ∧
    ((r.started = false ∨ QUESTIONS[r.currentIndex]? = none ∨ pid ∈ r.answered ∨
        r.players.find? (fun x => x.id == pid) = none) →
      (GameRoom.answer r pid ci).1.finishedOrder = r.finishedOrder) ∧
    (∀ sId nm col gid : String, ∀ nn ai : ℕ,
      (GameRoom.join r sId nm col gid nn ai).2.finishedOrder = r.finishedOrder) ∧
    (GameRoom.next r).finishedOrder = r.finishedOrder ∧
    (GameRoom.tick r).1.finishedOrder = r.finishedOrder ∧
    (GameRoom.reset r).finishedOrder = [] ∧
    (r.started = false → (GameRoom.start r).1.finishedOrder = []) ∧
    (r.started = true → (GameRoom.start r).1.finishedOrder = r.finishedOrder) := by
  have hinv := reachable_inv hr
  refine ⟨hinv.2.2.1, hinv.2.2.2, ?_, ?_, ?_, ?_, next_finishedOrder r, ?_, rfl, ?_, ?_⟩
  · intro hs hq ha hp hc
    have hid : p.id = pid := find?_eq_id hp
    constructor
    · rw [GameRoom.answer_correct_eq r pid ci q p hs hq ha hp hc]
      exact find?_updatePlayer _ hp rfl
    · rw [answer_correct_finishedOrder r pid ci q p hs hq ha hp hc, hid]
  · intro hs hq ha hp hc
    rw [GameRoom.answer_incorrect_eq r pid ci q p hs hq ha hp hc]
  · intro h
    rw [GameRoom.answer_noop r pid ci h]
  · intro sId nm col gid nn ai
    rfl
  · unfold GameRoom.tick
    split <;> rfl
  · intro hns
    unfold GameRoom.start
    rw [if_neg (by simp [hns])]
  · intro hs
    unfold GameRoom.start
    rw [if_pos hs]

/-- C5 witness: on the reachable trace where the player answers questions 0,
1 and 2 correctly, the third answer lifts the progress from 64 to 100 and the
player is appended to the previously empty finish order, which then still has
length at most 3 and no duplicates. -/
theorem C5_witness :
    Reachable winD ∧ winD.finishedOrder = [] ∧
    winE.finishedOrder = ["p1"] ∧
    winE.finishedOrder.length ≤ 3 ∧ winE.finishedOrder.Nodup := by
  have hrA : Reachable missA :=
    Reachable.step reachable_exampleRunning (Step.answer exampleRunning "p1" 1)
  have hrB : Reachable missB := Reachable.step hrA (Step.next missA)
  have hrC : Reachable winC := Reachable.step hrB (Step.answer missB "p1" 2)
  have hrD : Reachable winD := Reachable.step hrC (Step.next winC)
  have hrE : Reachable winE := Reachable.step hrD (Step.answer winD "p1" 2)
  have happ := (C5_finish_order winD hrD "p1" 2 question2 winPlayer).2.2.1 rfl rfl
    (by decide) (by rw [winD_players]; rfl) rfl
  have hprog : (GameRoom.scoredPlayer winD.timeLeft winPlayer).progress ≥ 100 := by
    rw [scoredPlayer_at_20 winD.timeLeft winPlayer rfl]
    norm_num [winPlayer, examplePlayer, clamp, min_def, max_def]
  have hfinE : winE.finishedOrder = ["p1"] := by
    show (GameRoom.answer winD "p1" 2).1.finishedOrder = ["p1"]
    rw [happ.2, if_pos ⟨hprog, by rw [winD_finishedOrder]; simp, by rw [winD_finishedOrder]; simp⟩]
    rw [winD_finishedOrder]
    rfl
  exact ⟨hrD, winD_finishedOrder, hfinE,
    (C5_finish_order winE hrE "p1" 2 question2 winPlayer).1,
    (C5_finish_order winE hrE "p1" 2 question2 winPlayer).2.1⟩

/-- C10: in every reachable room state the current question index stays below
the number of questions, so the snapshot's question field is never null —
even after the round has ended. -/
theorem C10_wire_question (r : GameRoom) (hr : Reachable r) :
    r.currentIndex < QUESTIONS.length ∧ (GameRoom.wire r).question ≠ none := by
  have h1 := (reachable_inv hr).1
  refine ⟨h1, ?_⟩
  show QUESTIONS[r.currentIndex]? ≠ none
  rw [List.getElem?_eq_getElem h1]
  simp

/-- C10 witness: the statement evaluated on the room whose round has ended by
next() on the last question: the index is still the last valid one and the
snapshot still carries a question. -/
theorem C10_witness :
    Reachable endedRoom ∧ endedRoom.started = false ∧ endedRoom.currentIndex = 4 ∧
    endedRoom.currentIndex < QUESTIONS.length ∧ (GameRoom.wire endedRoom).question ≠ none := by
  have hre : Reachable endedRoom :=
    Reachable.step (Reachable.step (Reachable.step (Reachable.step (Reachable.step
      reachable_exampleRunning (Step.next exampleRunning))
      (Step.next (GameRoom.next exampleRunning)))
      (Step.next (GameRoom.next (GameRoom.next exampleRunning))))
      (Step.next (GameRoom.next (GameRoom.next (GameRoom.next exampleRunning)))))
      (Step.next (GameRoom.next (GameRoom.next (GameRoom.next (GameRoom.next exampleRunning)))))
  exact ⟨hre, by decide, by decide,
    (C10_wire_question endedRoom hre).1, (C10_wire_question endedRoom hre).2⟩
